import Mathlib

/-!
Verification of the numerical cores of the infinity-wearable simulation
scripts: the IR-drop grid relaxation solver of
`simulations/power_density_sim.py` and the Kuramoto synchronization sweep of
`simulations/sequinoid_network_sim.py`, together with the Schottky barrier
computation of `simulations/spark_gap_bio_sim.py`.

Floating-point values of the Python source are embedded as exact rationals
(for the grid solver, which uses only field arithmetic) or as real numbers
(for the Kuramoto loop, which uses transcendental functions).
-/

namespace PowerDensity

/-- Grid size: `N = 30` in `power_density_sim.py`. -/
def N : ℕ := 30

/-- A voltage (or resistance) field over the grid, as a function of the
row and column index. -/
def Grid : Type := ℕ → ℕ → ℚ

/-- Sheet resistance map (Ω/square): base value `1.0`, overwritten by the
three stretch-zone assignments `R_sheet[12:18, 10:20] = 5.0`,
`R_sheet[0:3, :] = 3.0`, `R_sheet[25:30, 12:18] = 2.0` (the zones have
pairwise disjoint row ranges, so assignment order does not matter; the last
assignment is tested first here). -/
def R_sheet (i j : ℕ) : ℚ :=
  if (25 ≤ i ∧ i < 30) ∧ (12 ≤ j ∧ j < 18) then 2
  else if i < 3 then 3
  else if (12 ≤ i ∧ i < 18) ∧ (10 ≤ j ∧ j < 20) then 5
  else 1

/-- The single fixed-voltage source cell `source_pos = (15, 28)`. -/
def sourcePos : ℕ × ℕ := (15, 28)

/-- Initial voltage field: zeros except `V[source_pos] = 3.3`. -/
def V0 : Grid := fun i j => if (i, j) = sourcePos then 33/10 else 0

/-- Total conductance of the four orthogonal neighbors of cell `(i, j)`,
each neighbor contributing `1 / R_sheet` at the neighbor cell
(`g = 1.0 / R_sheet[i+di, j+dj]` in the source). -/
def gTotal (i j : ℕ) : ℚ :=
  1 / R_sheet (i-1) j + 1 / R_sheet (i+1) j + 1 / R_sheet i (j-1) + 1 / R_sheet i (j+1)

/-- Conductance-weighted sum of the four orthogonal neighbors' voltages
(`v_sum` in the source). -/
def vSum (V : Grid) (i j : ℕ) : ℚ :=
  (1 / R_sheet (i-1) j) * V (i-1) j + (1 / R_sheet (i+1) j) * V (i+1) j +
    (1 / R_sheet i (j-1)) * V i (j-1) + (1 / R_sheet i (j+1)) * V i (j+1)

/-- One Jacobi sweep over the interior cells (`for i in range(1, N-1): for j
in range(1, N-1)`), reading only the previous field: the source cell is
skipped, and a cell is updated only under the guard `g_total > 0`. Cells
outside the interior are not written. -/
def sweep (V : Grid) : Grid := fun i j =>
  if (1 ≤ i ∧ i < N - 1) ∧ (1 ≤ j ∧ j < N - 1) then
    if (i, j) = sourcePos then V i j
    else if 0 < gTotal i j then vSum V i j / gTotal i j
    else V i j
  else V i j

/-- The current sinks `sink_positions`: `(row, col, I_mA)` triples. -/
def sinkPositions : List (ℕ × ℕ × ℚ) :=
  [(5, 5, 1/10), (5, 25, 1/10), (15, 5, 3/10), (15, 15, 1/5),
   (25, 5, 1/20), (25, 25, 1/20), (10, 15, 3/20), (20, 15, 1/10)]

/-- The grid cells occupied by sinks. -/
def sinkCells : List (ℕ × ℕ) := sinkPositions.map (fun s => (s.1, s.2.1))

/-- One sink correction: `V[x, y] -= I_mA * R_sheet[x, y] * 0.001`. -/
def applySink (V : Grid) (s : ℕ × ℕ × ℚ) : Grid := fun i j =>
  if i = s.1 ∧ j = s.2.1 then V i j - s.2.2 * R_sheet s.1 s.2.1 * (1/1000) else V i j

/-- Apply the per-iteration correction at every sink, in list order. -/
def applySinks (V : Grid) : Grid := sinkPositions.foldl applySink V

/-- One full relaxation iteration: interior Jacobi sweep, then the sink
corrections. -/
def iterStep (V : Grid) : Grid := applySinks (sweep V)

/-- The voltage field after `k` relaxation iterations. -/
def relax (k : ℕ) : Grid := iterStep^[k] V0

/-- The final field, after the fixed count of 2000 iterations
(`for iteration in range(2000)`); the loop has no convergence test. -/
def V_final : Grid := relax 2000

/-- The delivered-voltage classification of the report loop:
`"OK" if v_del > 1.8 else "LOW" if v_del > 1.2 else "FAIL"`. -/
def classifyDelivered (v : ℚ) : String :=
  if 9/5 < v then "OK" else if 6/5 < v then "LOW" else "FAIL"

/-- The status printed for the sink at `(x, y)` after relaxation. -/
def deliveredStatus (x y : ℕ) : String := classifyDelivered (V_final x y)

lemma R_sheet_pos (i j : ℕ) : 0 < R_sheet i j := by
  unfold R_sheet; split_ifs <;> norm_num

lemma gTotal_pos (i j : ℕ) : 0 < gTotal i j := by
  have h1 := R_sheet_pos (i-1) j
  have h2 := R_sheet_pos (i+1) j
  have h3 := R_sheet_pos i (j-1)
  have h4 := R_sheet_pos i (j+1)
  unfold gTotal
  positivity

lemma relax_succ (k : ℕ) : relax (k + 1) = iterStep (relax k) :=
  Function.iterate_succ_apply' iterStep k V0

lemma sweep_interior (V : Grid) (i j : ℕ) (hi1 : 1 ≤ i) (hi2 : i < N - 1)
    (hj1 : 1 ≤ j) (hj2 : j < N - 1) (hs : (i, j) ≠ sourcePos) :
    sweep V i j = vSum V i j / gTotal i j := by
  unfold sweep
  rw [if_pos ⟨⟨hi1, hi2⟩, ⟨hj1, hj2⟩⟩, if_neg hs, if_pos (gTotal_pos i j)]

lemma sweep_not_interior (V : Grid) (i j : ℕ)
    (h : ¬((1 ≤ i ∧ i < N - 1) ∧ (1 ≤ j ∧ j < N - 1))) : sweep V i j = V i j := by
  unfold sweep
  rw [if_neg h]

lemma sweep_source (V : Grid) : sweep V 15 28 = V 15 28 := by
  unfold sweep
  rw [if_pos (by norm_num [N]), if_pos (show ((15 : ℕ), (28 : ℕ)) = sourcePos from rfl)]

lemma applySink_ne (V : Grid) (s : ℕ × ℕ × ℚ) (i j : ℕ)
    (h : ¬(i = s.1 ∧ j = s.2.1)) : applySink V s i j = V i j := if_neg h

lemma applySinks_ne (V : Grid) (i j : ℕ) (h : (i, j) ∉ sinkCells) :
    applySinks V i j = V i j := by
  simp only [sinkCells, sinkPositions, List.map_cons, List.map_nil, List.mem_cons,
    List.not_mem_nil, or_false, Prod.mk.injEq, not_or, not_and] at h
  obtain ⟨h1, h2, h3, h4, h5, h6, h7, h8⟩ := h
  simp only [applySinks, sinkPositions, List.foldl_cons, List.foldl_nil]
  rw [applySink_ne, applySink_ne, applySink_ne, applySink_ne,
    applySink_ne, applySink_ne, applySink_ne, applySink_ne]
  · exact fun ⟨a, b⟩ => h1 a b
  · exact fun ⟨a, b⟩ => h2 a b
  · exact fun ⟨a, b⟩ => h3 a b
  · exact fun ⟨a, b⟩ => h4 a b
  · exact fun ⟨a, b⟩ => h5 a b
  · exact fun ⟨a, b⟩ => h6 a b
  · exact fun ⟨a, b⟩ => h7 a b
  · exact fun ⟨a, b⟩ => h8 a b

lemma source_not_sink : ((15 : ℕ), (28 : ℕ)) ∉ sinkCells := by decide

lemma relax_source (k : ℕ) : relax k 15 28 = 33/10 := by
  induction k with
  | zero =>
    show V0 15 28 = 33/10
    simp [V0, sourcePos]
  | succ k ih =>
    rw [relax_succ]
    show applySinks (sweep (relax k)) 15 28 = 33/10
    rw [applySinks_ne _ _ _ source_not_sink, sweep_source, ih]

lemma border_not_sink (i j : ℕ) (h : i = 0 ∨ i = N - 1 ∨ j = 0 ∨ j = N - 1) :
    (i, j) ∉ sinkCells := by
  intro hmem
  simp only [sinkCells, sinkPositions, List.map_cons, List.map_nil, List.mem_cons,
    List.not_mem_nil, or_false, Prod.mk.injEq] at hmem
  simp only [N] at h
  rcases hmem with ⟨a, b⟩ | ⟨a, b⟩ | ⟨a, b⟩ | ⟨a, b⟩ | ⟨a, b⟩ | ⟨a, b⟩ | ⟨a, b⟩ | ⟨a, b⟩ <;>
    omega

lemma border_not_interior (i j : ℕ) (h : i = 0 ∨ i = N - 1 ∨ j = 0 ∨ j = N - 1) :
    ¬((1 ≤ i ∧ i < N - 1) ∧ (1 ≤ j ∧ j < N - 1)) := by
  simp only [N] at h ⊢
  omega

lemma relax_border (k i j : ℕ) (h : i = 0 ∨ i = N - 1 ∨ j = 0 ∨ j = N - 1) :
    relax k i j = 0 := by
  induction k with
  | zero =>
    show V0 i j = 0
    unfold V0 sourcePos
    rw [if_neg]
    intro he
    rw [Prod.mk.injEq] at he
    simp only [N] at h
    omega
  | succ k ih =>
    rw [relax_succ]
    show applySinks (sweep (relax k)) i j = 0
    rw [applySinks_ne _ _ _ (border_not_sink i j h),
      sweep_not_interior _ _ _ (border_not_interior i j h), ih]

/-- C1: for every field and every interior cell (indices `1 ≤ i, j ≤ N-2`)
other than the source cell, the swept voltage equals the conductance-weighted
average of the four orthogonal neighbors' voltages of the previous field,
with weight `1 / R_sheet` at each neighbor; and the final field is exactly
2000 applications of the iteration step to the initial field, with no
convergence-tolerance check terminating the loop early. -/
theorem C1_jacobi_sweep :
    (∀ (V : Grid) (i j : ℕ), 1 ≤ i → i < N - 1 → 1 ≤ j → j < N - 1 →
      (i, j) ≠ sourcePos →
      sweep V i j =
        ((1 / R_sheet (i-1) j) * V (i-1) j + (1 / R_sheet (i+1) j) * V (i+1) j +
          (1 / R_sheet i (j-1)) * V i (j-1) + (1 / R_sheet i (j+1)) * V i (j+1)) /
        (1 / R_sheet (i-1) j + 1 / R_sheet (i+1) j +
          1 / R_sheet i (j-1) + 1 / R_sheet i (j+1))) ∧
    V_final = iterStep^[2000] V0 := by
  constructor
  · intro V i j hi1 hi2 hj1 hj2 hs
    rw [sweep_interior V i j hi1 hi2 hj1 hj2 hs]
    rfl
  · rfl

/-- C1 witness: the sweep at the concrete interior cell `(5, 5)` of the
initial field. -/
theorem C1_witness :
    sweep V0 5 5 =
      ((1 / R_sheet 4 5) * V0 4 5 + (1 / R_sheet 6 5) * V0 6 5 +
        (1 / R_sheet 5 4) * V0 5 4 + (1 / R_sheet 5 6) * V0 5 6) /
      (1 / R_sheet 4 5 + 1 / R_sheet 6 5 + 1 / R_sheet 5 4 + 1 / R_sheet 5 6) :=
  C1_jacobi_sweep.1 V0 5 5 (by decide) (by decide) (by decide) (by decide) (by decide)

/-- C3 counterexample: the code classifies with strict comparisons
(`v_del > 1.8`, `v_del > 1.2`), so a delivered voltage of exactly 1.8 V is
classified LOW (not OK) and exactly 1.2 V is classified FAIL (not LOW). -/
theorem C3_counterexample :
    classifyDelivered (9/5) ≠ "OK" ∧ classifyDelivered (6/5) ≠ "LOW" ∧
    classifyDelivered (9/5) = "LOW" ∧ classifyDelivered (6/5) = "FAIL" := by
  have h1 : classifyDelivered (9/5) = "LOW" := by unfold classifyDelivered; norm_num
  have h2 : classifyDelivered (6/5) = "FAIL" := by unfold classifyDelivered; norm_num
  exact ⟨by rw [h1]; decide, by rw [h2]; decide, h1, h2⟩

/-- C3 amended: the classification is OK exactly when the delivered voltage
is strictly above 1.8 V, LOW exactly when it is strictly above 1.2 V but at
most 1.8 V, and FAIL exactly when it is at most 1.2 V; it is applied to the
post-relaxation voltage at each sink position. -/
theorem C3_amended_thresholds :
    (∀ v : ℚ, (classifyDelivered v = "OK" ↔ 9/5 < v) ∧
      (classifyDelivered v = "LOW" ↔ 6/5 < v ∧ v ≤ 9/5) ∧
      (classifyDelivered v = "FAIL" ↔ v ≤ 6/5)) ∧
    (∀ x y : ℕ, deliveredStatus x y = classifyDelivered (V_final x y)) := by
  constructor
  · intro v
    unfold classifyDelivered
    split_ifs with h1 h2
    · refine ⟨⟨fun _ => h1, fun _ => rfl⟩, ⟨?_, ?_⟩, ⟨?_, ?_⟩⟩
      · intro h; exact absurd h (by decide)
      · rintro ⟨-, hle⟩; exact absurd h1 (not_lt.mpr hle)
      · intro h; exact absurd h (by decide)
      · intro hle; exact absurd h1 (not_lt.mpr (by linarith))
    · refine ⟨⟨?_, ?_⟩, ⟨fun _ => ⟨h2, not_lt.mp h1⟩, fun _ => rfl⟩, ⟨?_, ?_⟩⟩
      · intro h; exact absurd h (by decide)
      · intro h; exact absurd h h1
      · intro h; exact absurd h (by decide)
      · intro hle; exact absurd h2 (not_lt.mpr hle)
    · refine ⟨⟨?_, ?_⟩, ⟨?_, ?_⟩, ⟨fun _ => not_lt.mp h2, fun _ => rfl⟩⟩
      · intro h; exact absurd h (by decide)
      · intro h; exact absurd h h1
      · intro h; exact absurd h (by decide)
      · rintro ⟨hv, -⟩; exact absurd hv h2
  · intro x y
    rfl

/-- C4: after the interior sweep, the sink-correction step decreases each
sink cell's voltage by exactly `I_mA * R_sheet[x, y] * 0.001` and leaves
every other cell unchanged. -/
theorem C4_sink_correction : ∀ V : Grid,
    (applySinks V 5 5 = V 5 5 - (1/10) * R_sheet 5 5 * (1/1000)) ∧
    (applySinks V 5 25 = V 5 25 - (1/10) * R_sheet 5 25 * (1/1000)) ∧
    (applySinks V 15 5 = V 15 5 - (3/10) * R_sheet 15 5 * (1/1000)) ∧
    (applySinks V 15 15 = V 15 15 - (1/5) * R_sheet 15 15 * (1/1000)) ∧
    (applySinks V 25 5 = V 25 5 - (1/20) * R_sheet 25 5 * (1/1000)) ∧
    (applySinks V 25 25 = V 25 25 - (1/20) * R_sheet 25 25 * (1/1000)) ∧
    (applySinks V 10 15 = V 10 15 - (3/20) * R_sheet 10 15 * (1/1000)) ∧
    (applySinks V 20 15 = V 20 15 - (1/10) * R_sheet 20 15 * (1/1000)) ∧
    (∀ i j : ℕ, (i, j) ∉ sinkCells → applySinks V i j = V i j) := by
  intro V
  refine ⟨?_, ?_, ?_, ?_, ?_, ?_, ?_, ?_, applySinks_ne V⟩ <;>
    simp [applySinks, sinkPositions, applySink]

/-- C4 witness: the sink-correction step leaves the non-sink cell `(2, 2)`
of the initial field unchanged. -/
theorem C4_witness : applySinks V0 2 2 = V0 2 2 :=
  (C4_sink_correction V0).2.2.2.2.2.2.2.2 2 2 (by decide)

/-- C7: the single fixed-voltage source cell is `(15, 28)`; its voltage is
3.3 V initially and after every relaxation iteration (the sweep skips it and
no sink correction targets it), so the supply value reported at the end is
3.3 V. -/
theorem C7_source_fixed :
    sourcePos = (15, 28) ∧
    V0 15 28 = 33/10 ∧
    ((15, 28) : ℕ × ℕ) ∉ sinkCells ∧
    (∀ V : Grid, sweep V 15 28 = V 15 28) ∧
    (∀ k : ℕ, relax k 15 28 = 33/10) ∧
    V_final 15 28 = 33/10 :=
  ⟨rfl, by simp [V0, sourcePos], source_not_sink, sweep_source, relax_source,
    relax_source 2000⟩

/-- C10: every border cell of the 30×30 grid (row 0, row N-1, column 0 or
column N-1) is written by neither the interior sweep nor the sink
corrections, so it keeps its initial value 0 V after every iteration: an
unstated 0 V Dirichlet condition on the grid edge. -/
theorem C10_border_zero : ∀ (k i j : ℕ), i < N → j < N →
    (i = 0 ∨ i = N - 1 ∨ j = 0 ∨ j = N - 1) → relax k i j = 0 :=
  fun k i j _ _ h => relax_border k i j h

/-- C10 witness: the border cell `(0, 7)` still holds 0 V after three
iterations. -/
theorem C10_witness : relax 3 0 7 = 0 :=
  C10_border_zero 3 0 7 (by decide) (by decide) (Or.inl rfl)

end PowerDensity

namespace Sequinoid

/-- Number of oscillators: `N_users = 20`. -/
def nUsers : ℕ := 20

instance : NeZero nUsers := ⟨by norm_num [nUsers]⟩

/-- A phase (or natural-frequency) assignment for the 20 oscillators. -/
def Phases : Type := Fin nUsers → ℝ

/-- Integration time step: `dt = 0.001` s. -/
noncomputable def dt : ℝ := 1/1000

/-- Simulated duration: `T_sim = 5.0` s. -/
noncomputable def T_sim : ℝ := 5

/-- Number of steps: `steps = int(T_sim / dt) = 5000`. -/
def steps : ℕ := 5000

/-- All-to-all sinusoidal coupling term of oscillator `i`:
`coupling[i] = (K / N_users) * np.sum(np.sin(theta - theta[i]))`. -/
noncomputable def coupling (K : ℝ) (θ : Phases) (i : Fin nUsers) : ℝ :=
  (K / nUsers) * ∑ j, Real.sin (θ j - θ i)

/-- One explicit Euler step: `theta += (omega + coupling) * dt`. -/
noncomputable def eulerStep (K : ℝ) (ω θ : Phases) : Phases :=
  fun i => θ i + (ω i + coupling K θ i) * dt

/-- The phase vector after `k` Euler steps. -/
noncomputable def thetaAt (K : ℝ) (ω θ0 : Phases) (k : ℕ) : Phases :=
  (eulerStep K ω)^[k] θ0

/-- The Kuramoto order parameter: `r = abs(np.mean(np.exp(1j * theta)))`,
the magnitude of the mean unit phasor. -/
noncomputable def orderParam (θ : Phases) : ℝ :=
  Complex.abs ((∑ j, Complex.exp ((θ j : ℂ) * Complex.I)) / nUsers)

/-- The order parameter at step `k` of the run (computed at the top of every
loop iteration, before the phase update of that step). -/
noncomputable def rHist (K : ℝ) (ω θ0 : Phases) (k : ℕ) : ℝ :=
  orderParam (thetaAt K ω θ0 k)

section
open Classical

/-- The first step index at which the order parameter strictly exceeds 0.9
(`if r > 0.9 and sync_time is None: sync_time = step * dt`), or `none` if it
never does within the run. -/
noncomputable def firstLockStep (r : ℕ → ℝ) : Option ℕ :=
  if h : ∃ k, k < steps ∧ 9/10 < r k then some (Nat.find h) else none

/-- The recorded `sync_time`: first-lock step index times `dt`. -/
noncomputable def syncTime (r : ℕ → ℝ) : Option ℝ :=
  (firstLockStep r).map (fun k : ℕ => (k : ℝ) * dt)

/-- The sync column of the printed report: either a lock time or the
`">5.0"` no-lock marker. -/
inductive SyncReport : Type
  | noLock : SyncReport
  | lockAt : ℝ → SyncReport

/-- The printed sync column: `sync_str = f"{sync_time:.2f}" if sync_time
else ">5.0"`. Python truthiness makes both `None` and the float `0.0` take
the `">5.0"` branch, which the equality test with 0 mirrors. -/
noncomputable def reportedSync (t : Option ℝ) : SyncReport :=
  match t with
  | none => SyncReport.noLock
  | some t => if t = 0 then SyncReport.noLock else SyncReport.lockAt t

/-- The quantity the code classifies: `r_final = np.mean(r_history[-100:])`,
the mean of the order parameter over the last 100 recorded steps. -/
noncomputable def rFinal (r : ℕ → ℝ) : ℝ :=
  (∑ k ∈ Finset.Ico (steps - 100) steps, r k) / 100

/-- The coherence classification:
`"LOCKED" if r_final > 0.9 else "PARTIAL" if r_final > 0.5 else
"INCOHERENT"`. -/
noncomputable def classifyCoherence (x : ℝ) : String :=
  if 9/10 < x then "LOCKED" else if 1/2 < x then "PARTIAL" else "INCOHERENT"

lemma reportedSync_none : reportedSync none = SyncReport.noLock := rfl

lemma reportedSync_some (t : ℝ) :
    reportedSync (some t) = if t = 0 then SyncReport.noLock else SyncReport.lockAt t := rfl

/-- The sync column printed for the run at coupling `K`. -/
noncomputable def syncReportOfRun (K : ℝ) (ω θ0 : Phases) : SyncReport :=
  reportedSync (syncTime (rHist K ω θ0))

/-- The status column printed for the run at coupling `K`. -/
noncomputable def coherenceOfRun (K : ℝ) (ω θ0 : Phases) : String :=
  classifyCoherence (rFinal (rHist K ω θ0))

end

lemma dt_pos : (0:ℝ) < dt := by norm_num [dt]

lemma coupling_K_zero (θ : Phases) (i : Fin nUsers) : coupling 0 θ i = 0 := by
  simp [coupling]

lemma thetaAt_succ (K : ℝ) (ω θ0 : Phases) (k : ℕ) :
    thetaAt K ω θ0 (k + 1) = eulerStep K ω (thetaAt K ω θ0 k) :=
  Function.iterate_succ_apply' (eulerStep K ω) k θ0

lemma thetaAt_K_zero (ω θ0 : Phases) (k : ℕ) (i : Fin nUsers) :
    thetaAt 0 ω θ0 k i = θ0 i + k * (ω i * dt) := by
  induction k with
  | zero => simp [thetaAt]
  | succ k ih =>
    rw [thetaAt_succ]
    show thetaAt 0 ω θ0 k i + (ω i + coupling 0 (thetaAt 0 ω θ0 k) i) * dt = _
    rw [coupling_K_zero, ih]
    push_cast
    ring

lemma orderParam_zero : orderParam (fun _ => (0:ℝ)) = 1 := by
  unfold orderParam
  have h : ∑ j : Fin nUsers, Complex.exp (((0:ℝ) : ℂ) * Complex.I) = 20 := by
    simp [nUsers]
  rw [h]
  have h2 : ((20 : ℂ) / (nUsers : ℂ)) = 1 := by
    norm_num [nUsers]
  rw [h2, map_one]

/-- C2: for every coupling strength, step and oscillator, the phase advances
by one explicit Euler step of the all-to-all sinusoidal Kuramoto model with
`dt = 0.001` s over `5000` steps (5 s), and the order parameter recorded at
every step is the magnitude of the mean of the unit phasors. -/
theorem C2_euler_step : ∀ (K : ℝ) (ω θ0 : Phases) (k : ℕ) (i : Fin nUsers),
    thetaAt K ω θ0 (k+1) i =
      thetaAt K ω θ0 k i +
        (ω i + (K / 20) * ∑ j, Real.sin (thetaAt K ω θ0 k j - thetaAt K ω θ0 k i)) *
          (1/1000) ∧
    dt = 1/1000 ∧ (steps : ℝ) * dt = T_sim ∧ T_sim = 5 ∧
    rHist K ω θ0 k =
      Complex.abs ((∑ j, Complex.exp ((thetaAt K ω θ0 k j : ℂ) * Complex.I)) / 20) := by
  intro K ω θ0 k i
  refine ⟨?_, rfl, by norm_num [steps, dt, T_sim], rfl, ?_⟩
  · rw [thetaAt_succ]
    show thetaAt K ω θ0 k i + (ω i + coupling K (thetaAt K ω θ0 k) i) * dt = _
    unfold coupling dt
    norm_num [nUsers]
  · unfold rHist orderParam
    norm_num [nUsers]

lemma reported_noLock_iff (r : ℕ → ℝ) :
    reportedSync (syncTime r) = SyncReport.noLock ↔
      (∀ k, k < steps → r k ≤ 9/10) ∨ 9/10 < r 0 := by
  unfold syncTime firstLockStep
  by_cases hex : ∃ k, k < steps ∧ 9/10 < r k
  · rw [dif_pos hex]
    simp only [Option.map_some']
    rw [reportedSync_some]
    have hcast : ((Nat.find hex : ℝ) * dt = 0) ↔ Nat.find hex = 0 := by
      rw [mul_eq_zero]
      constructor
      · rintro (h | h)
        · exact_mod_cast h
        · exact absurd h (ne_of_gt dt_pos)
      · intro h
        exact Or.inl (by exact_mod_cast h)
    split_ifs with h0
    · refine iff_of_true rfl (Or.inr ?_)
      exact ((Nat.find_eq_zero hex).mp (hcast.mp h0)).2
    · refine iff_of_false (by simp) ?_
      rintro (hall | hr0)
      · obtain ⟨k, hk, hrk⟩ := hex
        exact absurd hrk (not_lt.mpr (hall k hk))
      · exact h0 (hcast.mpr ((Nat.find_eq_zero hex).mpr ⟨by norm_num [steps], hr0⟩))
  · rw [dif_neg hex]
    simp only [Option.map_none']
    rw [reportedSync_none]
    refine iff_of_true rfl (Or.inl ?_)
    intro k hk
    by_contra hgt
    exact hex ⟨k, hk, lt_of_not_le hgt⟩

lemma reported_lockAt (r : ℕ → ℝ) (k : ℕ) (hk0 : 0 < k) (hks : k < steps)
    (hrk : 9/10 < r k) (hmin : ∀ m, m < k → r m ≤ 9/10) :
    reportedSync (syncTime r) = SyncReport.lockAt ((k : ℝ) * dt) := by
  have hex : ∃ m, m < steps ∧ 9/10 < r m := ⟨k, hks, hrk⟩
  unfold syncTime firstLockStep
  rw [dif_pos hex]
  have hfind : Nat.find hex = k :=
    (Nat.find_eq_iff hex).mpr
      ⟨⟨hks, hrk⟩, fun m hm hc => absurd hc.2 (not_lt.mpr (hmin m hm))⟩
  rw [hfind]
  simp only [Option.map_some']
  rw [reportedSync_some, if_neg]
  intro h
  rcases mul_eq_zero.mp h with h | h
  · have hk : k = 0 := by exact_mod_cast h
    omega
  · exact absurd h (ne_of_gt dt_pos)

/-- Oscillators all starting at phase 0. -/
noncomputable def thetaZero : Phases := fun _ => 0

/-- All natural frequencies zero. -/
noncomputable def omegaZero : Phases := fun _ => 0

lemma rHist_zz : rHist 0 omegaZero thetaZero 0 = 1 := by
  show orderParam (thetaAt 0 omegaZero thetaZero 0) = 1
  exact orderParam_zero

/-- C5 counterexample: in a run whose order parameter already exceeds 0.9 at
step 0 (all phases equal), `sync_time` is set to `0.0`, which is falsy in
Python, so the printed report is the `">5.0"` no-lock marker even though the
order parameter exceeded 0.9 during the simulation — refuting the claimed
"if and only if", and in particular its step-0 case. -/
theorem C5_counterexample :
    syncReportOfRun 0 omegaZero thetaZero = SyncReport.noLock ∧
    9/10 < rHist 0 omegaZero thetaZero 0 := by
  constructor
  · show reportedSync (syncTime (rHist 0 omegaZero thetaZero)) = SyncReport.noLock
    exact (reported_noLock_iff _).mpr (Or.inr (by rw [rHist_zz]; norm_num))
  · rw [rHist_zz]; norm_num

/-- C5 amended: the `">5.0"` no-lock marker is reported if and only if the
order parameter never strictly exceeds 0.9 during the run, or it first
exceeds 0.9 at step 0 (whose recorded time `0.0` is falsy in Python and so
also prints as `">5.0"`); when the first strict exceedance happens at a step
`k > 0`, the reported synchronization time is `k * dt`. -/
theorem C5_amended_sync_report : ∀ (K : ℝ) (ω θ0 : Phases),
    (syncReportOfRun K ω θ0 = SyncReport.noLock ↔
      (∀ k, k < steps → rHist K ω θ0 k ≤ 9/10) ∨ 9/10 < rHist K ω θ0 0) ∧
    (∀ k : ℕ, 0 < k → k < steps → 9/10 < rHist K ω θ0 k →
      (∀ m, m < k → rHist K ω θ0 m ≤ 9/10) →
      syncReportOfRun K ω θ0 = SyncReport.lockAt ((k : ℝ) * dt)) :=
  fun K ω θ0 =>
    ⟨reported_noLock_iff (rHist K ω θ0),
     fun k hk0 hks hrk hmin => reported_lockAt (rHist K ω θ0) k hk0 hks hrk hmin⟩

/-- Ten oscillators at phase 0 and ten at phase π. -/
noncomputable def thetaHalf : Phases := fun i => if (i : ℕ) < 10 then 0 else Real.pi

/-- Natural frequencies that bring the second group back to phase 0 after
one step. -/
noncomputable def omegaHalf : Phases :=
  fun i => if (i : ℕ) < 10 then 0 else -(1000 * Real.pi)

lemma sum_if_lt10 (a b : ℂ) :
    ∑ i : Fin nUsers, (if (i : ℕ) < 10 then a else b) = 10 * a + 10 * b := by
  rw [Finset.sum_ite, Finset.sum_const, Finset.sum_const]
  have h1 : (Finset.univ.filter (fun i : Fin nUsers => (i : ℕ) < 10)).card = 10 := by decide
  have h2 : (Finset.univ.filter (fun i : Fin nUsers => ¬((i : ℕ) < 10))).card = 10 := by
    decide
  rw [h1, h2]
  simp [nsmul_eq_mul]

lemma rHalf_zero : rHist 0 omegaHalf thetaHalf 0 = 0 := by
  show orderParam thetaHalf = 0
  unfold orderParam
  have h : ∀ j : Fin nUsers, Complex.exp ((thetaHalf j : ℂ) * Complex.I) =
      if (j : ℕ) < 10 then 1 else -1 := by
    intro j
    unfold thetaHalf
    split_ifs with hj
    · simp
    · exact_mod_cast Complex.exp_pi_mul_I
  rw [Finset.sum_congr rfl (fun j _ => h j), sum_if_lt10]
  norm_num

lemma rHalf_one : rHist 0 omegaHalf thetaHalf 1 = 1 := by
  have hθ : thetaAt 0 omegaHalf thetaHalf 1 = (fun _ => (0:ℝ)) := by
    funext i
    rw [thetaAt_K_zero]
    unfold thetaHalf omegaHalf dt
    split_ifs with h
    · norm_num
    · push_cast
      ring
  show orderParam (thetaAt 0 omegaHalf thetaHalf 1) = 1
  rw [hθ]
  exact orderParam_zero

/-- C5 witness: in the half-and-half run the order parameter is 0 at step 0
and 1 at step 1, so the amended statement reports a lock at time `1 * dt`. -/
theorem C5_witness :
    syncReportOfRun 0 omegaHalf thetaHalf = SyncReport.lockAt (((1:ℕ) : ℝ) * dt) :=
  (C5_amended_sync_report 0 omegaHalf thetaHalf).2 1 one_pos (by norm_num [steps])
    (by rw [rHalf_one]; norm_num)
    (fun m hm => by
      have hm0 : m = 0 := by omega
      rw [hm0, rHalf_zero]; norm_num)

/-- One oscillator advancing by π per step, the other nineteen at rest. -/
noncomputable def omegaOne : Phases := fun i => if i = 0 then 1000 * Real.pi else 0

lemma sum_if_zero (a b : ℂ) :
    ∑ i : Fin nUsers, (if i = 0 then a else b) = a + 19 * b := by
  have h : ∀ i : Fin nUsers, (if i = 0 then a else b) = b + (if i = 0 then a - b else 0) :=
    by intro i; split_ifs <;> ring
  rw [Finset.sum_congr rfl (fun i _ => h i), Finset.sum_add_distrib, Finset.sum_const,
    Finset.sum_ite_eq' Finset.univ (0 : Fin nUsers) (fun _ => a - b)]
  simp [nUsers]
  ring

lemma rHist_One (k : ℕ) :
    rHist 0 omegaOne thetaZero k = if k % 2 = 0 then 1 else 9/10 := by
  have hθ : ∀ i, thetaAt 0 omegaOne thetaZero k i =
      if i = 0 then (k : ℝ) * Real.pi else 0 := by
    intro i
    rw [thetaAt_K_zero]
    show (0:ℝ) + k * ((if i = 0 then 1000 * Real.pi else 0) * dt) = _
    unfold dt
    split_ifs with h
    · ring
    · ring
  have hexp : ∀ j : Fin nUsers,
      Complex.exp ((thetaAt 0 omegaOne thetaZero k j : ℂ) * Complex.I) =
        if j = 0 then (-1 : ℂ) ^ k else 1 := by
    intro j
    rw [hθ j]
    split_ifs with h
    · push_cast
      rw [show ((k : ℂ) * (Real.pi : ℂ) * Complex.I) =
          (k : ℕ) * ((Real.pi : ℂ) * Complex.I) by ring,
        Complex.exp_nat_mul, Complex.exp_pi_mul_I]
    · simp
  unfold rHist orderParam
  rw [Finset.sum_congr rfl (fun j _ => hexp j), sum_if_zero]
  rcases Nat.even_or_odd k with he | ho
  · rw [if_pos (Nat.even_iff.mp he), he.neg_one_pow]
    have h1 : ((1 : ℂ) + 19 * 1) / (nUsers : ℂ) = 1 := by norm_num [nUsers]
    rw [h1, map_one]
  · rw [if_neg (by rw [Nat.odd_iff.mp ho]; norm_num), ho.neg_one_pow]
    have h1 : ((-1 : ℂ) + 19 * 1) / (nUsers : ℂ) = ((9/10 : ℝ) : ℂ) := by
      push_cast [nUsers]
      norm_num
    rw [h1, Complex.abs_ofReal]
    norm_num

lemma sum_range_alt (m : ℕ) (a b : ℝ) :
    ∑ k ∈ Finset.range (2 * m), (if k % 2 = 0 then a else b) = m * (a + b) := by
  induction m with
  | zero => simp
  | succ m ih =>
    rw [show 2 * (m + 1) = (2 * m) + 1 + 1 by ring, Finset.sum_range_succ,
      Finset.sum_range_succ, ih, if_pos (by omega : (2 * m) % 2 = 0),
      if_neg (by omega : ¬((2 * m + 1) % 2 = 0))]
    push_cast
    ring

lemma rFinal_One : rFinal (rHist 0 omegaOne thetaZero) = 19/20 := by
  unfold rFinal
  rw [show steps - 100 = 4900 by norm_num [steps], Finset.sum_Ico_eq_sum_range,
    show steps - 4900 = 100 by norm_num [steps]]
  have h3 : ∀ k ∈ Finset.range 100, rHist 0 omegaOne thetaZero (4900 + k) =
      (if k % 2 = 0 then (1:ℝ) else 9/10) := by
    intro k _
    rw [rHist_One, show (4900 + k) % 2 = k % 2 by omega]
  rw [Finset.sum_congr rfl h3, show (100:ℕ) = 2 * 50 by norm_num, sum_range_alt]
  norm_num

/-- C6 counterexample: in a run where the order parameter alternates between
1 (even steps) and 0.9 (odd steps), the mean over the last 100 steps is 0.95
and the code prints LOCKED, although the order parameter at the final step
(step 4999) is 0.9, not above 0.9 — so the classified quantity is not the
coherence at the end of the run. -/
theorem C6_counterexample :
    coherenceOfRun 0 omegaOne thetaZero = "LOCKED" ∧
    rHist 0 omegaOne thetaZero (steps - 1) ≤ 9/10 := by
  constructor
  · unfold coherenceOfRun
    rw [rFinal_One]
    unfold classifyCoherence
    rw [if_pos (by norm_num)]
  · rw [rHist_One, show (steps - 1) % 2 = 1 by norm_num [steps]]
    norm_num

/-- C6 amended: the LOCKED/PARTIAL/INCOHERENT classification uses the fixed
strict thresholds 0.9 and 0.5, but the classified quantity is the mean of
the order parameter over the last 100 recorded steps
(`np.mean(r_history[-100:])`), not the order parameter at the final step. -/
theorem C6_amended_classification : ∀ (K : ℝ) (ω θ0 : Phases),
    coherenceOfRun K ω θ0 = classifyCoherence (rFinal (rHist K ω θ0)) ∧
    (coherenceOfRun K ω θ0 = "LOCKED" ↔ 9/10 < rFinal (rHist K ω θ0)) ∧
    (coherenceOfRun K ω θ0 = "PARTIAL" ↔
      1/2 < rFinal (rHist K ω θ0) ∧ rFinal (rHist K ω θ0) ≤ 9/10) ∧
    (coherenceOfRun K ω θ0 = "INCOHERENT" ↔ rFinal (rHist K ω θ0) ≤ 1/2) := by
  intro K ω θ0
  refine ⟨rfl, ?_⟩
  unfold coherenceOfRun classifyCoherence
  split_ifs with h1 h2
  · exact ⟨⟨fun _ => h1, fun _ => rfl⟩,
      ⟨fun h => absurd h (by decide), fun hc => absurd h1 (not_lt.mpr hc.2)⟩,
      ⟨fun h => absurd h (by decide), fun hle => absurd h1 (not_lt.mpr (by linarith))⟩⟩
  · exact ⟨⟨fun h => absurd h (by decide), fun h => absurd h h1⟩,
      ⟨fun _ => ⟨h2, not_lt.mp h1⟩, fun _ => rfl⟩,
      ⟨fun h => absurd h (by decide), fun hle => absurd h2 (not_lt.mpr hle)⟩⟩
  · exact ⟨⟨fun h => absurd h (by decide), fun h => absurd h h1⟩,
      ⟨fun h => absurd h (by decide), fun hc => absurd hc.1 h2⟩,
      ⟨fun _ => not_lt.mp h2, fun _ => rfl⟩⟩

/-- The swept coupling ratios `K/K_c`: `[0.0, 0.5, 1.0, 1.5, 2.0, 3.0, 5.0]`. -/
noncomputable def Kratios : List ℝ := [0, 1/2, 1, 3/2, 2, 3, 5]

/-- Spread of the natural frequencies: `sigma_omega = 0.5` Hz. -/
noncomputable def sigmaOmega : ℝ := 1/2

/-- Critical coupling `K_c = 2 * (2 * pi * sigma_omega) / pi`. -/
noncomputable def K_c : ℝ := 2 * (2 * Real.pi * sigmaOmega) / Real.pi

/-- One printed row of the synchronization sweep table. -/
structure SweepRow : Type where
  syncCol : SyncReport
  statusCol : String

/-- The sweep table as a function of the drawn natural frequencies and the
per-coupling initial phase vectors. -/
noncomputable def sweepOutcomes (ω : Phases) (θs : ℕ → Phases) : List SweepRow :=
  (List.range Kratios.length).map (fun n =>
    { syncCol := syncReportOfRun (Kratios.getD n 0 * K_c) ω (θs n),
      statusCol := coherenceOfRun (Kratios.getD n 0 * K_c) ω (θs n) })

/-- Modelled from the spec: the seeded random draws. The code calls
`np.random.seed(42)` and then draws the natural frequencies
(`np.random.normal`) and, inside the sweep loop, each run's initial phases
(`np.random.uniform`); numpy's seeded generator is a deterministic function
of the seed alone and lives outside this repository, so it is abstracted as
an arbitrary sampler mapping a seed to the drawn frequency vector and the
per-coupling initial-phase vectors. -/
def Sampler : Type := ℕ → Phases × (ℕ → Phases)

/-- The fixed seed of `np.random.seed(42)`. -/
def theSeed : ℕ := 42

/-- The Kuramoto section's output — the drawn natural frequencies and the
printed sweep table — as a function of the sampler and the seed; the code
consumes no other input. -/
noncomputable def runSimulation (sampler : Sampler) (seed : ℕ) :
    Phases × List SweepRow :=
  ((sampler seed).1, sweepOutcomes (sampler seed).1 (sampler seed).2)

/-- C9: the Kuramoto simulation is deterministic — all randomness comes from
the generator initialized with the fixed seed, so two runs with the same
seed produce identical natural frequencies, identical phase trajectories for
every coupling in the sweep, and identical reported sync times and coherence
classifications. -/
theorem C9_deterministic : ∀ (sampler : Sampler) (s₁ s₂ : ℕ), s₁ = s₂ →
    (runSimulation sampler s₁).1 = (runSimulation sampler s₂).1 ∧
    (∀ n k, thetaAt (Kratios.getD n 0 * K_c) (sampler s₁).1 ((sampler s₁).2 n) k =
      thetaAt (Kratios.getD n 0 * K_c) (sampler s₂).1 ((sampler s₂).2 n) k) ∧
    (runSimulation sampler s₁).2 = (runSimulation sampler s₂).2 := by
  rintro sampler s₁ s₂ rfl
  exact ⟨rfl, fun _ _ => rfl, rfl⟩

/-- A concrete sampler for the witness; any deterministic function of the
seed works, since the determinism theorem quantifies over samplers. -/
noncomputable def witnessSampler : Sampler :=
  fun seed => (fun i => (seed : ℝ) + ((i : ℕ) : ℝ), fun n _ => (seed : ℝ) + (n : ℝ))

/-- C9 witness: two runs with the fixed seed 42 and the same sampler yield
the same printed sweep table. -/
theorem C9_witness :
    (runSimulation witnessSampler theSeed).2 = (runSimulation witnessSampler theSeed).2 :=
  (C9_deterministic witnessSampler theSeed theSeed rfl).2.2

end Sequinoid

namespace SparkGap

/-- Gold work function: `phi_Au = 5.1` eV. -/
def phi_Au : ℚ := 51/10

/-- Magnetite (Fe3O4) electron affinity: `chi_Fe3O4 = 4.5` eV. -/
def chi_Fe3O4 : ℚ := 9/2

/-- Schottky barrier height: `phi_B = phi_Au - chi_Fe3O4`. -/
def phi_B : ℚ := phi_Au - chi_Fe3O4

/-- C8: the Schottky barrier height of the Au/Fe3O4 junction is computed as
gold's work function (5.1 eV) minus the corresponding quantity of the second
material (magnetite's electron affinity, 4.5 eV), yielding 0.6 eV. -/
theorem C8_schottky_barrier :
    phi_Au = 51/10 ∧ chi_Fe3O4 = 9/2 ∧ phi_B = phi_Au - chi_Fe3O4 ∧ phi_B = 3/5 := by
  refine ⟨rfl, rfl, rfl, ?_⟩
  unfold phi_B phi_Au chi_Fe3O4
  norm_num

end SparkGap
